import Mathlib

/-!
Shallow embedding of the linkedin-agent repository core
(src/scraper.ts, src/auth.ts, src/poster.ts) and proofs of the
specification's testable properties.

JS values flowing through `extractPosts` are modelled by `JsonValue`
(the output of `JSON.parse`); `undefined` (absent property, broken
optional chain) is modelled by `Option JsonValue` being `none`.
-/

inductive JsonValue where
  | null
  | bool (b : Bool)
  | num (n : Int)
  | str (s : String)
  | arr (items : List JsonValue)
  | obj (fields : List (String × JsonValue))

/-- JavaScript truthiness of a defined value (`null`, `false`, `0` and
the empty string are falsy; arrays and objects are truthy). -/
def truthy : JsonValue → Bool
  | .null => false
  | .bool b => b
  | .num n => n != 0
  | .str s => s != ""
  | .arr _ => true
  | .obj _ => true

/-- Property access `v.k`: defined only on objects, `undefined` (`none`)
otherwise. Parsed JSON objects have distinct keys, so first-match lookup
is exact. -/
def jsGet (v : JsonValue) (k : String) : Option JsonValue :=
  match v with
  | .obj fields => fields.lookup k
  | _ => none

/-- Optional chaining `v?.k` on a possibly-undefined value. -/
def jsChain (v : Option JsonValue) (k : String) : Option JsonValue :=
  v.bind (fun x => jsGet x k)

/-- Truthiness of a possibly-undefined value (`undefined` is falsy). -/
def truthyOpt : Option JsonValue → Bool
  | some x => truthy x
  | none => false

/-- JavaScript `a || d` where `a` may be undefined: keeps `a` when
truthy, otherwise evaluates to the default. -/
def jsOrV (a : Option JsonValue) (d : JsonValue) : JsonValue :=
  match a with
  | some x => if truthy x then x else d
  | none => d

/-- Key comparison of the JS `Map` used for social counts
(SameValueZero): structural on primitives; two distinct values produced
by `JSON.parse` are never the same object reference, so composite keys
never compare equal. -/
def keyEq : JsonValue → JsonValue → Bool
  | .null, .null => true
  | .bool a, .bool b => a == b
  | .num a, .num b => a == b
  | .str a, .str b => a == b
  | _, _ => false

/-- Value part of one `SocialActivityCounts` entry
(scraper.ts:34-38); the JS object is untyped, so each counter is kept
as the raw value of `item.numLikes || 0` etc. -/
structure SocialCounts where
  numLikes : JsonValue
  numComments : JsonValue
  numShares : JsonValue

/-- The `LinkedInPost` record (scraper.ts:13-21). `text`,
`publishedAt` and the three counters are whatever JS values the payload
held, so they stay `JsonValue`; `id` and `url` are built by template
strings and are genuine strings. -/
structure LinkedInPost where
  id : String
  text : JsonValue
  publishedAt : JsonValue
  numLikes : JsonValue
  numComments : JsonValue
  numShares : JsonValue
  url : String

/-- `Map.set` on the counts map (update in place when the key is
already present, append otherwise). -/
def countsSet (m : List (JsonValue × SocialCounts)) (k : JsonValue)
    (v : SocialCounts) : List (JsonValue × SocialCounts) :=
  if m.any (fun p => keyEq p.1 k) then
    m.map (fun p => if keyEq p.1 k then (k, v) else p)
  else m ++ [(k, v)]

/-- `Map.get` on the counts map. -/
def countsGet (m : List (JsonValue × SocialCounts)) (k : JsonValue) :
    Option SocialCounts :=
  (m.find? (fun p => keyEq p.1 k)).map (fun p => p.2)

/-- The `$type === "com.linkedin.voyager.dash.feed.SocialActivityCounts"`
strict-equality test (scraper.ts:33). -/
def isCountsType (item : JsonValue) : Bool :=
  match jsGet item "$type" with
  | some (.str s) => s == "com.linkedin.voyager.dash.feed.SocialActivityCounts"
  | _ => false

/-- Step 1 of `extractPosts` (scraper.ts:31-40): one pass over
`included` building the activity-URN to social-counts map. -/
def buildCountsMap (included : List JsonValue) :
    List (JsonValue × SocialCounts) :=
  included.foldl
    (fun m item =>
      if isCountsType item ∧ truthyOpt (jsGet item "urn") then
        match jsGet item "urn" with
        | some urn =>
            countsSet m urn
              { numLikes := jsOrV (jsGet item "numLikes") (.num 0)
                numComments := jsOrV (jsGet item "numComments") (.num 0)
                numShares := jsOrV (jsGet item "numShares") (.num 0) }
        | none => m
      else m)
    []

/-- Strip a literal prefix from a character list, returning the
remainder on success. -/
def dropLit : List Char → List Char → Option (List Char)
  | [], s => some s
  | _ :: _, [] => none
  | p :: ps, c :: cs => if c = p then dropLit ps cs else none

/-- The regex search `/activity:(\d+)/` (scraper.ts:49): leftmost
position where the literal `activity:` is followed by at least one
digit; the captured group is the maximal digit run. -/
def findActivityDigits : List Char → Option (List Char)
  | [] => none
  | c :: cs =>
    match dropLit "activity:".toList (c :: cs) with
    | some rest =>
        let ds := rest.takeWhile (fun ch => ch.isDigit)
        if ds.isEmpty then findActivityDigits cs else some ds
    | none => findActivityDigits cs

/-- The commentary extraction `item?.commentary?.text?.text`
(scraper.ts:44). -/
def commentaryOf (item : JsonValue) : Option JsonValue :=
  jsChain (jsChain (jsGet item "commentary") "text") "text"

/-- Step 2 of `extractPosts` (scraper.ts:43-70): walk `included`
pushing one record per commentary item. `dashUrn.match` on a truthy
non-string value throws a TypeError in JS; the surrounding
`try/catch` (scraper.ts:26,71) then returns the records pushed so
far, which the corresponding branch models by returning `acc`. -/
def extractStep2 (countsMap : List (JsonValue × SocialCounts)) :
    List JsonValue → List LinkedInPost → List LinkedInPost
  | [], acc => acc
  | item :: rest, acc =>
    if truthyOpt (commentaryOf item) then
      match jsOrV (jsGet item "preDashEntityUrn")
          (jsOrV (jsGet item "entityUrn") (.str "")) with
      | .str dashUrn =>
        match findActivityDigits dashUrn.toList with
        | none => extractStep2 countsMap rest acc
        | some ds =>
          let activityUrn := "urn:li:activity:" ++ String.mk ds
          let counts := (countsGet countsMap (.str activityUrn)).getD
            { numLikes := .num 0, numComments := .num 0, numShares := .num 0 }
          let publishedAt :=
            jsOrV (jsChain (jsChain (jsGet item "actor") "subDescription") "text")
              (.str "")
          extractStep2 countsMap rest (acc ++
            [{ id := activityUrn
               text := (commentaryOf item).getD .null
               publishedAt := publishedAt
               numLikes := counts.numLikes
               numComments := counts.numComments
               numShares := counts.numShares
               url := "https://www.linkedin.com/feed/update/" ++ activityUrn ++ "/" }])
      | _ => acc
    else extractStep2 countsMap rest acc

/-- The `included` array of a payload (scraper.ts:27-28); empty when
the payload is not an object or `included` is not an array. -/
def includedOf (data : JsonValue) : List JsonValue :=
  match jsGet data "included" with
  | some (.arr items) => items
  | _ => []

/-- The Record Extractor `extractPosts` (scraper.ts:23-76). Total by
construction: the source's `try/catch` guarantees it never raises, and
the one reachable throw site is embedded as the early-return branch of
`extractStep2`. -/
def extractPosts (data : JsonValue) : List LinkedInPost :=
  let included := includedOf data
  extractStep2 (buildCountsMap included) included []

/-- The response-handler fold into the run Accumulator
(scraper.ts:195-199): insert a record only when its id and text are
truthy and the id is not yet present (first seen wins). -/
def accumulate (acc : List LinkedInPost) (posts : List LinkedInPost) :
    List LinkedInPost :=
  posts.foldl
    (fun m post =>
      if post.id ≠ "" ∧ truthy post.text ∧ ¬ (∃ q ∈ m, q.id = post.id) then
        m ++ [post]
      else m)
    acc

/-- One observed payload pushed through the Record Extractor and folded
into the Accumulator (scraper.ts:185-206). -/
def processPayload (acc : List LinkedInPost) (data : JsonValue) :
    List LinkedInPost :=
  accumulate acc (extractPosts data)

/-- A run's sequence of observed payloads folded into the (initially
empty) Accumulator. -/
def processPayloads (payloads : List JsonValue) : List LinkedInPost :=
  payloads.foldl processPayload []

/-- Termination reasons of `autoScroll` (scraper.ts:128-160): target
predicate satisfied, convergence (three consecutive no-change
observations), or hard cap. -/
inductive ScrollStop where
  | limit
  | converged
  | maxed
deriving DecidableEq

/-- Loop body of `autoScroll`, recursing on the remaining iteration
budget. `heights i` is the value `document.body.scrollHeight` measures
at iteration `i`; `shouldStop i` is the target predicate checked at the
top of iteration `i`. Returns the stop reason and the iteration index
at which the loop stopped. -/
def autoScrollAux (heights : Nat → Nat) (shouldStop : Nat → Bool) :
    Nat → Nat → Nat → Nat → ScrollStop × Nat
  | 0, i, _, _ => (.maxed, i)
  | fuel + 1, i, previousHeight, noChangeCount =>
    if shouldStop i then (.limit, i)
    else
      let currentHeight := heights i
      if currentHeight = previousHeight then
        if noChangeCount + 1 ≥ 3 then (.converged, i)
        else autoScrollAux heights shouldStop fuel (i + 1) currentHeight (noChangeCount + 1)
      else autoScrollAux heights shouldStop fuel (i + 1) currentHeight 0

/-- The Pagination Controller `autoScroll` (scraper.ts:128-160):
`previousHeight` starts at 0, the no-change counter at 0, and the loop
runs for at most `maxScrolls` iterations. -/
def autoScroll (heights : Nat → Nat) (shouldStop : Nat → Bool)
    (maxScrolls : Nat) : ScrollStop × Nat :=
  autoScrollAux heights shouldStop maxScrolls 0 0 0

/-- Identifier sequence of a post list. -/
def ids (m : List LinkedInPost) : List String :=
  m.map (fun p => p.id)

/-- `Map.set(p.id, p)` on the merge map (scraper.ts:234-236): when the
id is already a key the entry is overwritten in place, otherwise the
entry is appended (JS `Map` preserves insertion order in `values()`). -/
def postSet (m : List LinkedInPost) (p : LinkedInPost) : List LinkedInPost :=
  if p.id ∈ ids m then m.map (fun q => if q.id = p.id then p else q)
  else m ++ [p]

/-- The merge step of `getLinkedInPosts` (scraper.ts:234-237): insert
the existing records and then the new run's records into one map keyed
by id, and take the value list. -/
def mergePosts (existing newPosts : List LinkedInPost) : List LinkedInPost :=
  newPosts.foldl postSet (existing.foldl postSet [])

/-- The `Credentials` record (auth.ts:12-19). Timestamps are seconds
since epoch as produced by `Math.floor(Date.now() / 1000)`. -/
structure Credentials where
  clientId : String
  clientSecret : String
  accessToken : String
  refreshToken : String
  personId : String
  expiresAt : Int
deriving DecidableEq

/-- Parsed body of a token-endpoint response as `refreshAccessToken`
reads it (auth.ts:207-216): the raw body kept for error messages, and
the three fields consulted, each `none` when absent. -/
structure TokenResponse where
  body : String
  access_token : Option String
  refresh_token : Option String
  expires_in : Option Int
deriving DecidableEq

/-- JavaScript `a || d` for a possibly-undefined string field. -/
def jsOrStr (a : Option String) (d : String) : String :=
  match a with
  | some s => if s ≠ "" then s else d
  | none => d

/-- JavaScript `a || d` for a possibly-undefined numeric field. -/
def jsOrInt (a : Option Int) (d : Int) : Int :=
  match a with
  | some n => if n ≠ 0 then n else d
  | none => d

/-- `refreshAccessToken` (auth.ts:190-222). `Except.error` models a
thrown exception; `now` is the refresh-time clock reading and `tokens`
the parsed token-endpoint response. On success the stored record is
mutated in place with the new tokens and expiry (persistence by
`saveCredentials` carries no further logic). -/
def refreshAccessToken (creds : Credentials) (now : Int)
    (tokens : TokenResponse) : Except String Credentials :=
  if creds.refreshToken = "" then
    Except.error "No refresh token available. Run \x27linkedin-agent auth\x27 again."
  else
    match tokens.access_token with
    | some tok =>
        if tok = "" then Except.error ("Token refresh failed: " ++ tokens.body)
        else Except.ok
          { creds with
            accessToken := tok
            refreshToken := jsOrStr tokens.refresh_token creds.refreshToken
            expiresAt := now + jsOrInt tokens.expires_in 5184000 }
    | none => Except.error ("Token refresh failed: " ++ tokens.body)

/-- `getValidCredentials` (auth.ts:224-237). `stored` is the result of
`loadCredentials()` cast to the record type; `Except.error` models a
thrown exception. The `Nat` component instruments the number of
refresh exchanges performed on the success path. -/
def getValidCredentials (stored : Option Credentials) (now : Int)
    (tokens : TokenResponse) : Except String (Credentials × Nat) :=
  match stored with
  | none => Except.error "No credentials found. Run \x27linkedin-agent auth\x27 first."
  | some creds =>
      if creds.expiresAt < now + 86400 then
        (refreshAccessToken creds now tokens).map (fun c => (c, 1))
      else Except.ok (creds, 0)

/-- An HTTP response as `withRetry` and its callers see it
(poster.ts:26). -/
structure HttpResponse where
  status : Int
  body : String
  headers : List (String × String)
deriving DecidableEq

/-- The `PostResult` record (poster.ts:15-19). -/
structure PostResult where
  success : Bool
  postId : Option String
  error : Option String
deriving DecidableEq

/-- Instrumented outcome of one `withRetry` run: the returned value
(`Except.error` when an exception escaped), the number of underlying
calls performed, and the number of refresh exchanges performed. -/
structure RetryTrace where
  result : Except String PostResult
  calls : Nat
  refreshes : Nat

/-- The Resilient Request Executor `withRetry` (poster.ts:61-76). The
call-function `fn` receives the index of the call (0 or 1) and the
credential in use, modelling a stateful request; `now` and `tokens`
describe the environment the credential layer sees. -/
def withRetry (stored : Option Credentials) (now : Int)
    (tokens : TokenResponse) (fn : Nat → Credentials → HttpResponse)
    (onSuccess : HttpResponse → PostResult) : RetryTrace :=
  match getValidCredentials stored now tokens with
  | Except.error e => { result := Except.error e, calls := 0, refreshes := 0 }
  | Except.ok (creds, r0) =>
    let resp := fn 0 creds
    if resp.status = 401 then
      match refreshAccessToken creds now tokens with
      | Except.error e => { result := Except.error e, calls := 1, refreshes := r0 }
      | Except.ok creds2 =>
        let resp2 := fn 1 creds2
        if 200 ≤ resp2.status ∧ resp2.status < 300 then
          { result := Except.ok (onSuccess resp2), calls := 2, refreshes := r0 + 1 }
        else
          { result := Except.ok
              { success := false, postId := none
                error := some ("HTTP " ++ toString resp2.status ++ ": " ++ resp2.body) }
            calls := 2, refreshes := r0 + 1 }
    else
      if 200 ≤ resp.status ∧ resp.status < 300 then
        { result := Except.ok (onSuccess resp), calls := 1, refreshes := r0 }
      else
        { result := Except.ok
            { success := false, postId := none
              error := some ("HTTP " ++ toString resp.status ++ ": " ++ resp.body) }
          calls := 1, refreshes := r0 }

/-- State of the credential storage file as `loadCredentials`
distinguishes it (auth.ts:76-83): missing (`existsSync` false),
unparseable (`JSON.parse` throws), or parsed to a JSON value. -/
inductive CredFile where
  | missing
  | unparseable
  | parsed (v : JsonValue)

/-- The Credential Store `loadCredentials` (auth.ts:76-83): `none` for
a missing or unparseable file, otherwise the parsed JSON value,
returned as-is (the source casts it to `Credentials` unchecked). Total
by construction: the `try/catch` swallows the parse error. -/
def loadCredentials : CredFile → Option JsonValue
  | .missing => none
  | .unparseable => none
  | .parsed v => some v

/-- Whether a parsed JSON value is a fully-populated credential record:
all six fields present with the declared types (auth.ts:12-19). -/
def isFullRecord (v : JsonValue) : Bool :=
  (match jsGet v "clientId" with | some (.str _) => true | _ => false) &&
  (match jsGet v "clientSecret" with | some (.str _) => true | _ => false) &&
  (match jsGet v "accessToken" with | some (.str _) => true | _ => false) &&
  (match jsGet v "refreshToken" with | some (.str _) => true | _ => false) &&
  (match jsGet v "personId" with | some (.str _) => true | _ => false) &&
  (match jsGet v "expiresAt" with | some (.num _) => true | _ => false)

/-- A payload whose `included` array holds one social-counts item for
activity 7 and no commentary item. -/
def countsPayload (likes comments shares : Int) : JsonValue :=
  .obj [("included", .arr [
    .obj [("$type", .str "com.linkedin.voyager.dash.feed.SocialActivityCounts"),
          ("urn", .str "urn:li:activity:7"),
          ("numLikes", .num likes),
          ("numComments", .num comments),
          ("numShares", .num shares)]])]

/-- A payload whose `included` array holds one commentary item for
activity 7 and no social-counts item. -/
def commentPayload : JsonValue :=
  .obj [("included", .arr [
    .obj [("commentary", .obj [("text", .obj [("text", .str "hello")])]),
          ("preDashEntityUrn", .str "urn:li:fsd_update:(urn:li:activity:7,MEMBER_SHARES)"),
          ("actor", .obj [("subDescription", .obj [("text", .str "3d")])])]])]

/-- The record the Accumulator holds for activity 7 after observing the
two payloads above: text from the commentary item, counters zero-filled. -/
def crossPost : LinkedInPost :=
  { id := "urn:li:activity:7"
    text := .str "hello"
    publishedAt := .str "3d"
    numLikes := .num 0
    numComments := .num 0
    numShares := .num 0
    url := "https://www.linkedin.com/feed/update/urn:li:activity:7/" }

/-- A payload with an `included` array none of whose items carries a
commentary text (a primitive, a null, a counts item, and an object whose
`commentary.text` is a bare string so `commentary?.text?.text` is
undefined). -/
def noCommentaryPayload : JsonValue :=
  .obj [("included", .arr [.num 3, .null,
    .obj [("$type", .str "com.linkedin.voyager.dash.feed.SocialActivityCounts"),
          ("urn", .str "urn:li:activity:9"), ("numLikes", .num 4)],
    .obj [("commentary", .obj [("text", .str "no nested text")])]])]

/-- A stored credential far from expiry, with a refresh token. -/
def freshCred : Credentials :=
  { clientId := "id", clientSecret := "sec", accessToken := "tok",
    refreshToken := "ref", personId := "p", expiresAt := 100000000 }

/-- The record `refreshAccessToken freshCred 0 tokensGood` produces. -/
def refreshedCred : Credentials :=
  { clientId := "id", clientSecret := "sec", accessToken := "newtok",
    refreshToken := "ref", personId := "p", expiresAt := 5184000 }

/-- A token-endpoint response carrying no fields. -/
def tokensNone : TokenResponse :=
  { body := "", access_token := none, refresh_token := none, expires_in := none }

/-- A token-endpoint response carrying a fresh access token. -/
def tokensGood : TokenResponse :=
  { body := "tb", access_token := some "newtok", refresh_token := none,
    expires_in := none }

/-- A call-function answering 401 on the first call and 200 on the
retry. -/
def expiredFn : Nat → Credentials → HttpResponse :=
  fun n _ =>
    if n = 0 then { status := 401, body := "unauthorized", headers := [] }
    else { status := 200, body := "ok", headers := [] }

/-- A success interpreter echoing the response body. -/
def okInterp : HttpResponse → PostResult :=
  fun r => { success := true, postId := some r.body, error := none }

/-- A stored credential far from expiry whose refresh token is empty. -/
def noRefreshCred : Credentials :=
  { clientId := "id2", clientSecret := "sec2", accessToken := "tok2",
    refreshToken := "", personId := "p2", expiresAt := 100000000 }

/-- A call-function answering 401 on every call. -/
def fn401 : Nat → Credentials → HttpResponse :=
  fun _ _ => { status := 401, body := "expired", headers := [] }

/-- A success interpreter with a fixed answer. -/
def anyInterp : HttpResponse → PostResult :=
  fun _ => { success := true, postId := none, error := none }

/-- A syntactically valid JSON object that is not a fully-populated
credential record. -/
def partialRecord : JsonValue := .obj [("clientId", .str "abc")]

/-- A previously persisted record for activity 1. -/
def postA : LinkedInPost :=
  { id := "urn:li:activity:1", text := .str "old text", publishedAt := .str "9d"
    numLikes := .num 5, numComments := .num 1, numShares := .num 0
    url := "https://www.linkedin.com/feed/update/urn:li:activity:1/" }

/-- A new run's record for activity 1 (same identifier as `postA`,
fresher values). -/
def postA2 : LinkedInPost :=
  { id := "urn:li:activity:1", text := .str "new text", publishedAt := .str "9d"
    numLikes := .num 9, numComments := .num 2, numShares := .num 1
    url := "https://www.linkedin.com/feed/update/urn:li:activity:1/" }

/-- A new run's record for activity 2. -/
def postB : LinkedInPost :=
  { id := "urn:li:activity:2", text := .str "other", publishedAt := .str "1d"
    numLikes := .num 0, numComments := .num 0, numShares := .num 0
    url := "https://www.linkedin.com/feed/update/urn:li:activity:2/" }

/-- Identifier list of the empty post list. -/
theorem ids_nil : ids [] = [] := rfl

/-- Identifier list of a cons. -/
theorem ids_cons (p : LinkedInPost) (l : List LinkedInPost) :
    ids (p :: l) = p.id :: ids l := rfl

/-- Identifier list of an append. -/
theorem ids_append (a b : List LinkedInPost) : ids (a ++ b) = ids a ++ ids b := by
  simp [ids]

/-- Membership in the identifier list is witnessed by a record. -/
theorem mem_ids (k : String) (m : List LinkedInPost) :
    k ∈ ids m ↔ ∃ q ∈ m, q.id = k := by
  simp [ids]

/-- Setting a record keeps the key list unchanged on collision and
appends the key otherwise. -/
theorem ids_postSet (m : List LinkedInPost) (p : LinkedInPost) :
    ids (postSet m p) = if p.id ∈ ids m then ids m else ids m ++ [p.id] := by
  by_cases hmem : p.id ∈ ids m
  · rw [postSet, if_pos hmem, if_pos hmem]
    show List.map _ _ = _
    rw [ids, List.map_map]
    apply List.map_congr_left
    intro q _
    by_cases hc : q.id = p.id
    · simp [Function.comp, hc]
    · simp [Function.comp, hc]
  · rw [postSet, if_neg hmem, if_neg hmem, ids_append]
    rfl

/-- Keys after folding a record list into the map are the old keys and
the folded records' keys. -/
theorem mem_ids_foldl (l : List LinkedInPost) (m : List LinkedInPost) (k : String) :
    k ∈ ids (l.foldl postSet m) ↔ k ∈ ids m ∨ k ∈ ids l := by
  induction l generalizing m with
  | nil => simp [ids_nil]
  | cons p rest ih =>
    rw [List.foldl_cons, ih, ids_postSet]
    by_cases hmem : p.id ∈ ids m
    · rw [if_pos hmem, ids_cons]
      simp only [List.mem_cons]
      constructor
      · rintro (h | h)
        · exact Or.inl h
        · exact Or.inr (Or.inr h)
      · rintro (h | rfl | h)
        · exact Or.inl h
        · exact Or.inl hmem
        · exact Or.inr h
    · rw [if_neg hmem, ids_cons]
      simp only [List.mem_append, List.mem_cons, List.not_mem_nil, or_false]
      tauto

/-- Setting a record preserves distinctness of the keys. -/
theorem nodup_ids_postSet (m : List LinkedInPost) (p : LinkedInPost)
    (h : (ids m).Nodup) : (ids (postSet m p)).Nodup := by
  rw [ids_postSet]
  by_cases hmem : p.id ∈ ids m
  · rwa [if_pos hmem]
  · rw [if_neg hmem]
    simp [List.nodup_append, h, hmem]

/-- Folding a record list preserves distinctness of the keys. -/
theorem nodup_ids_foldl (l : List LinkedInPost) (m : List LinkedInPost)
    (h : (ids m).Nodup) : (ids (l.foldl postSet m)).Nodup := by
  induction l generalizing m with
  | nil => exact h
  | cons p rest ih => exact ih (postSet m p) (nodup_ids_postSet m p h)

/-- Every record of the updated map is an old record or the set one. -/
theorem mem_postSet (m : List LinkedInPost) (p : LinkedInPost) :
    ∀ q ∈ postSet m p, q ∈ m ∨ q = p := by
  intro q hq
  rw [postSet] at hq
  split at hq
  · obtain ⟨r, hr, rfl⟩ := List.mem_map.mp hq
    by_cases hc : r.id = p.id
    · simp [hc]
    · simp [hc, hr]
  · rcases List.mem_append.mp hq with h | h
    · exact Or.inl h
    · exact Or.inr (List.mem_singleton.mp h)

/-- Every record of the folded map is an old record or a folded one. -/
theorem mem_foldl_postSet (l : List LinkedInPost) (m : List LinkedInPost) :
    ∀ q ∈ l.foldl postSet m, q ∈ m ∨ q ∈ l := by
  induction l generalizing m with
  | nil => intro q hq; exact Or.inl hq
  | cons p rest ih =>
    intro q hq
    rw [List.foldl_cons] at hq
    rcases ih (postSet m p) q hq with h | h
    · rcases mem_postSet m p q h with h2 | h2
      · exact Or.inl h2
      · exact Or.inr (h2 ▸ List.mem_cons_self p rest)
    · exact Or.inr (List.mem_cons_of_mem _ h)

/-- After setting a record, every record carrying its key is that
record. -/
theorem postSet_key_eq (m : List LinkedInPost) (p : LinkedInPost) :
    ∀ q ∈ postSet m p, q.id = p.id → q = p := by
  intro q hq hid
  rw [postSet] at hq
  split at hq
  · obtain ⟨r, _, rfl⟩ := List.mem_map.mp hq
    by_cases hc : r.id = p.id
    · simp [hc]
    · simp only [if_neg hc] at hid ⊢
      exact absurd hid hc
  · rename_i hmem
    rcases List.mem_append.mp hq with h | h
    · exact absurd ((mem_ids p.id m).mpr ⟨q, h, hid⟩) hmem
    · exact List.mem_singleton.mp h

/-- After folding a key-distinct record list, every record of the map
carrying one of the folded keys is the folded record itself. -/
theorem foldl_new_wins (l : List LinkedInPost) (m : List LinkedInPost)
    (h : (ids l).Nodup) :
    ∀ p ∈ l, ∀ q ∈ l.foldl postSet m, q.id = p.id → q = p := by
  induction l generalizing m with
  | nil => intro p hp; exact absurd hp (List.not_mem_nil p)
  | cons p0 rest ih =>
    rw [ids_cons, List.nodup_cons] at h
    intro p hp q hq hid
    rw [List.foldl_cons] at hq
    rcases List.mem_cons.mp hp with rfl | hp2
    · rcases mem_foldl_postSet rest (postSet m p) q hq with hqm | hqr
      · exact postSet_key_eq m p q hqm hid
      · exact absurd ((mem_ids p.id rest).mpr ⟨q, hqr, hid⟩) h.1
    · exact ih (postSet m p0) h.2 p hp2 q hq hid

/-- Every record of a key-distinct folded list appears in the folded
map. -/
theorem foldl_mem_of_mem (l : List LinkedInPost) (m : List LinkedInPost)
    (h : (ids l).Nodup) : ∀ p ∈ l, p ∈ l.foldl postSet m := by
  intro p hp
  have hmem : p.id ∈ ids (l.foldl postSet m) :=
    (mem_ids_foldl l m p.id).mpr (Or.inr ((mem_ids p.id l).mpr ⟨p, hp, rfl⟩))
  obtain ⟨q, hq, hqid⟩ := (mem_ids p.id (l.foldl postSet m)).mp hmem
  exact (foldl_new_wins l m h p hp q hq hqid) ▸ hq

/-- Folding records whose keys are fresh and distinct appends them in
order. -/
theorem foldl_postSet_append (m acc : List LinkedInPost)
    (h : (ids acc ++ ids m).Nodup) : m.foldl postSet acc = acc ++ m := by
  induction m generalizing acc with
  | nil => simp
  | cons p rest ih =>
    rw [ids_cons] at h
    have hp_not : p.id ∉ ids acc := by
      intro hmem
      exact (List.disjoint_of_nodup_append h) hmem (List.mem_cons_self _ _)
    rw [List.foldl_cons]
    have hps : postSet acc p = acc ++ [p] := by rw [postSet, if_neg hp_not]
    have hnodup2 : (ids (acc ++ [p]) ++ ids rest).Nodup := by
      rw [ids_append]
      have e : (ids acc ++ ids [p]) ++ ids rest = ids acc ++ (p.id :: ids rest) := by
        simp [ids]
      rw [e]
      exact h
    rw [hps, ih (acc ++ [p]) hnodup2]
    simp

/-- Folding records that each leave the map unchanged leaves the map
unchanged. -/
theorem foldl_postSet_fix (l : List LinkedInPost) (m : List LinkedInPost)
    (hfix : ∀ p ∈ l, postSet m p = m) : l.foldl postSet m = m := by
  induction l with
  | nil => rfl
  | cons p rest ih =>
    rw [List.foldl_cons, hfix p (List.mem_cons_self p rest)]
    exact ih (fun q hq => hfix q (List.mem_cons_of_mem p hq))

/-- Setting a record already present under its key (as the only record
with that key) leaves the map unchanged. -/
theorem postSet_eq_self (m : List LinkedInPost) (p : LinkedInPost)
    (hmem : p.id ∈ ids m) (huniq : ∀ q ∈ m, q.id = p.id → q = p) :
    postSet m p = m := by
  rw [postSet, if_pos hmem]
  conv_rhs => rw [← List.map_id m]
  apply List.map_congr_left
  intro q hq
  by_cases hc : q.id = p.id
  · rw [if_pos hc]
    exact (huniq q hq hc).symm
  · rw [if_neg hc]
    rfl

/-- A walk over items none of which carries a commentary text pushes
nothing. -/
theorem extractStep2_no_commentary (cm : List (JsonValue × SocialCounts))
    (l : List JsonValue) (acc : List LinkedInPost)
    (h : ∀ item ∈ l, truthyOpt (commentaryOf item) = false) :
    extractStep2 cm l acc = acc := by
  induction l with
  | nil => rfl
  | cons item rest ih =>
    rw [extractStep2, h item (List.mem_cons_self item rest)]
    simp only [Bool.false_eq_true, if_false]
    exact ih (fun q hq => h q (List.mem_cons_of_mem _ hq))

/-- The pagination loop body stops within the remaining iteration
budget. -/
theorem autoScrollAux_snd_le (heights : Nat → Nat) (shouldStop : Nat → Bool) :
    ∀ fuel i prev count,
      (autoScrollAux heights shouldStop fuel i prev count).2 ≤ i + fuel := by
  intro fuel
  induction fuel with
  | zero => intro i prev count; simp [autoScrollAux]
  | succ n ih =>
    intro i prev count
    simp only [autoScrollAux]
    split
    · simp
    · split
      · split
        · simp
        · exact le_trans (ih (i + 1) _ _) (by omega)
      · exact le_trans (ih (i + 1) _ _) (by omega)

/-- C1 (counterexample): counts for activity 7 arrive in one payload
(likes 5, comments 2, shares 1) and commentary in another; after both
payloads are processed the Accumulator holds one record for activity 7,
but its counters are zero-filled, not the counts item's values — the
counts map is rebuilt per payload, so the claimed cross-payload
combination does not happen. -/
theorem crossPayload_counts_not_combined :
    processPayloads [countsPayload 5 2 1, commentPayload] = [crossPost] ∧
    crossPost.numLikes ≠ JsonValue.num 5 ∧
    crossPost.numComments ≠ JsonValue.num 2 ∧
    crossPost.numShares ≠ JsonValue.num 1 := by
  refine ⟨rfl, ?_, ?_, ?_⟩
  · intro h
    exact absurd (JsonValue.num.inj h) (by decide)
  · intro h
    exact absurd (JsonValue.num.inj h) (by decide)
  · intro h
    exact absurd (JsonValue.num.inj h) (by decide)

/-- C1 (amended): when a counts item for activity 7 and a commentary
item for activity 7 arrive in different payloads, in either order and
for every counter values, the Accumulator holds exactly one record for
the activity, with the text from the commentary item but with
zero-filled counters: `extractPosts` correlates counts with commentary
only within a single payload. -/
theorem crossPayload_zero_filled (likes comments shares : Int) :
    processPayloads [countsPayload likes comments shares, commentPayload] = [crossPost] ∧
    processPayloads [commentPayload, countsPayload likes comments shares] = [crossPost] :=
  ⟨rfl, rfl⟩

/-- C2 (counterexample): a page of constant size 10 with no target stop
and cap 10 yields three consecutive equal measurements at iterations
0, 1 and 2, yet the controller requests more content after the third
and stops only at iteration 3, the fourth measurement — not at the
third. -/
theorem autoScroll_three_equal_counterexample :
    autoScroll (fun _ => 10) (fun _ => false) 10 = (ScrollStop.converged, 3) ∧
    ((ScrollStop.converged, 3) : ScrollStop × Nat) ≠ (ScrollStop.converged, 2) := by
  constructor
  · decide
  · decide

/-- C2 (amended): convergence needs the no-change counter to reach
three, i.e. three consecutive observations each equal to their
predecessor. For a run whose measured size is constant at a nonzero
value (so the first measurement differs from the zero baseline), with
no target stop and cap at least 4, the controller terminates by
convergence at iteration index 3 — the fourth equal measurement, which
is the third no-change observation. -/
theorem autoScroll_converges_fourth (h cap : Nat) (hh : h ≠ 0) (hcap : 4 ≤ cap) :
    autoScroll (fun _ => h) (fun _ => false) cap = (ScrollStop.converged, 3) := by
  obtain ⟨k, rfl⟩ : ∃ k, cap = k + 4 := ⟨cap - 4, by omega⟩
  simp [autoScroll, autoScrollAux, hh]

/-- C2 (witness): the amended theorem at height 10 and cap 5. -/
theorem autoScroll_converges_fourth_witness :
    (10 : Nat) ≠ 0 ∧ 4 ≤ 5 ∧
    autoScroll (fun _ => 10) (fun _ => false) 5 = (ScrollStop.converged, 3) :=
  ⟨by decide, by decide, autoScroll_converges_fourth 10 5 (by decide) (by decide)⟩

/-- C3: when the first call answers 401, the (successful) forced
refresh is performed exactly once and the second call answers 200, the
executor returns the success interpretation of the second response
having made exactly two underlying calls and one refresh; and for
every environment, call-function and interpreter it never makes more
than two underlying calls. -/
theorem withRetry_401_then_200 :
    (∀ (stored : Option Credentials) (c c2 : Credentials) (now : Int)
        (tokens : TokenResponse) (fn : Nat → Credentials → HttpResponse)
        (onSuccess : HttpResponse → PostResult),
      stored = some c → ¬ c.expiresAt < now + 86400 →
      (fn 0 c).status = 401 →
      refreshAccessToken c now tokens = Except.ok c2 →
      (fn 1 c2).status = 200 →
      withRetry stored now tokens fn onSuccess =
        { result := Except.ok (onSuccess (fn 1 c2)), calls := 2, refreshes := 1 }) ∧
    (∀ (stored : Option Credentials) (now : Int) (tokens : TokenResponse)
        (fn : Nat → Credentials → HttpResponse) (onSuccess : HttpResponse → PostResult),
      (withRetry stored now tokens fn onSuccess).calls ≤ 2) := by
  constructor
  · intro stored c c2 now tokens fn onSuccess hs hexp h401 href h200
    subst hs
    simp [withRetry, getValidCredentials, hexp, h401, href, h200]
  · intro stored now tokens fn onSuccess
    unfold withRetry
    split
    · simp
    · rename_i creds r0
      dsimp only
      split
      · split
        · simp
        · split
          · simp
          · simp
      · split
        · simp
        · simp

/-- C3 (witness): a fresh stored credential, a call-function answering
401 then 200, and a refresh exchange that succeeds. -/
theorem withRetry_401_then_200_witness :
    (¬ freshCred.expiresAt < (0 : Int) + 86400) ∧
    (expiredFn 0 freshCred).status = 401 ∧
    refreshAccessToken freshCred 0 tokensGood = Except.ok refreshedCred ∧
    (expiredFn 1 refreshedCred).status = 200 ∧
    withRetry (some freshCred) 0 tokensGood expiredFn okInterp =
      { result := Except.ok (okInterp (expiredFn 1 refreshedCred)),
        calls := 2, refreshes := 1 } :=
  ⟨by decide, rfl, rfl, rfl,
   withRetry_401_then_200.1 (some freshCred) freshCred refreshedCred 0 tokensGood
     expiredFn okInterp rfl (by decide) rfl rfl rfl⟩

/-- C4: the merged collection's identifier set is exactly the union of
the prior and new identifier sets, and every record of the new run
appears in the merge and is the only record carrying its identifier
(new wins on conflict). The new run's records have distinct
identifiers, being the values of the id-keyed Accumulator. -/
theorem mergePosts_union_new_wins (ex new : List LinkedInPost)
    (h : (ids new).Nodup) :
    (∀ k, k ∈ ids (mergePosts ex new) ↔ k ∈ ids ex ∨ k ∈ ids new) ∧
    (∀ p ∈ new, p ∈ mergePosts ex new ∧
      ∀ q ∈ mergePosts ex new, q.id = p.id → q = p) := by
  constructor
  · intro k
    rw [mergePosts, mem_ids_foldl, mem_ids_foldl]
    simp [ids_nil]
  · intro p hp
    exact ⟨foldl_mem_of_mem new (ex.foldl postSet []) h p hp,
      fun q hq hqid => foldl_new_wins new (ex.foldl postSet []) h p hp q hq hqid⟩

/-- C4 (witness): merging a new run holding a fresher record for
activity 1 and a record for activity 2 into a prior collection holding
activity 1 keeps the new run's record for activity 1. -/
theorem mergePosts_union_new_wins_witness :
    (ids [postA2, postB]).Nodup ∧
    postA2 ∈ mergePosts [postA] [postA2, postB] :=
  ⟨by decide,
   ((mergePosts_union_new_wins [postA] [postA2, postB] (by decide)).2 postA2
     (by simp)).1⟩

/-- C5: merging the same new run twice yields the same collection,
value list included, as merging it once. -/
theorem mergePosts_idempotent (ex new : List LinkedInPost)
    (h : (ids new).Nodup) :
    mergePosts (mergePosts ex new) new = mergePosts ex new := by
  have hM : (ids (mergePosts ex new)).Nodup := by
    rw [mergePosts]
    exact nodup_ids_foldl new _ (nodup_ids_foldl ex [] (by simp [ids]))
  show new.foldl postSet ((mergePosts ex new).foldl postSet []) = mergePosts ex new
  have h1 : (mergePosts ex new).foldl postSet [] = mergePosts ex new := by
    have := foldl_postSet_append (mergePosts ex new) [] (by simpa [ids_nil] using hM)
    simpa using this
  rw [h1]
  apply foldl_postSet_fix
  intro p hp
  apply postSet_eq_self
  · rw [mergePosts, mem_ids_foldl]
    exact Or.inr ((mem_ids p.id new).mpr ⟨p, hp, rfl⟩)
  · intro q hq hqid
    exact foldl_new_wins new (ex.foldl postSet []) h p hp q hq hqid

/-- C5 (witness): idempotence at a concrete prior collection and new
run. -/
theorem mergePosts_idempotent_witness :
    (ids [postB]).Nodup ∧
    mergePosts (mergePosts [postA] [postB]) [postB] = mergePosts [postA] [postB] :=
  ⟨by decide, mergePosts_idempotent [postA] [postB] (by decide)⟩

/-- C6: Get-valid fails on an absent record; on a stored record it
performs the refresh exchange exactly when the stored expiry is less
than one day (86400 seconds) past the current time, returning the
refresh's outcome, and otherwise returns the stored record unchanged
with no refresh performed. -/
theorem getValidCredentials_refresh_iff (stored : Option Credentials) (now : Int)
    (tokens : TokenResponse) :
    (stored = none →
      getValidCredentials stored now tokens =
        Except.error "No credentials found. Run \x27linkedin-agent auth\x27 first.") ∧
    (∀ c, stored = some c →
      (c.expiresAt < now + 86400 →
        getValidCredentials stored now tokens =
          (refreshAccessToken c now tokens).map (fun x => (x, 1))) ∧
      (¬ c.expiresAt < now + 86400 →
        getValidCredentials stored now tokens = Except.ok (c, 0))) := by
  refine ⟨fun h => by rw [h]; rfl, fun c hc => ⟨fun hexp => ?_, fun hexp => ?_⟩⟩
  · rw [hc]
    simp only [getValidCredentials]
    rw [if_pos hexp]
  · rw [hc]
    simp only [getValidCredentials]
    rw [if_neg hexp]

/-- C6 (witness): no stored record fails; a record expiring far in the
future is returned unchanged with no refresh. -/
theorem getValidCredentials_refresh_iff_witness :
    getValidCredentials none 0 tokensNone =
      Except.error "No credentials found. Run \x27linkedin-agent auth\x27 first." ∧
    getValidCredentials (some freshCred) 0 tokensNone = Except.ok (freshCred, 0) :=
  ⟨(getValidCredentials_refresh_iff none 0 tokensNone).1 rfl,
   ((getValidCredentials_refresh_iff (some freshCred) 0 tokensNone).2 freshCred rfl).2
     (by decide)⟩

/-- C7: for every content source and target predicate the Pagination
Controller stops within the caller's cap: the iteration index at which
`autoScroll` returns never exceeds `cap` (and the function is total, so
the loop always terminates). -/
theorem autoScroll_bounded (heights : Nat → Nat) (shouldStop : Nat → Bool)
    (cap : Nat) : (autoScroll heights shouldStop cap).2 ≤ cap := by
  simpa using autoScrollAux_snd_le heights shouldStop cap 0 0 0

/-- C8: the Record Extractor yields the empty sequence on every payload
none of whose included items carries a truthy commentary text — in
particular on non-object payloads and payloads without an `included`
array, whose item list is empty. The extractor is total (the source
wraps everything in try/catch), so it never raises. -/
theorem extractPosts_empty_of_no_commentary (data : JsonValue)
    (h : ∀ item ∈ includedOf data, truthyOpt (commentaryOf item) = false) :
    extractPosts data = [] :=
  extractStep2_no_commentary _ _ [] h

/-- C8 (witness): a payload whose included items carry no commentary
text yields no record. -/
theorem extractPosts_empty_of_no_commentary_witness :
    (∀ item ∈ includedOf noCommentaryPayload, truthyOpt (commentaryOf item) = false) ∧
    extractPosts noCommentaryPayload = [] :=
  ⟨by decide, extractPosts_empty_of_no_commentary noCommentaryPayload (by decide)⟩

/-- C9 (counterexample): a storage file holding the syntactically valid
JSON object with only a clientId field is loaded and returned as-is,
although it is not a fully-populated credential record — `load` treats
only unparseable content as absent and performs no shape validation, so
it can return a partially-populated record. -/
theorem loadCredentials_partial_counterexample :
    loadCredentials (CredFile.parsed partialRecord) = some partialRecord ∧
    isFullRecord partialRecord = false :=
  ⟨rfl, rfl⟩

/-- C9 (amended): `load` never raises (it is total), returns none
exactly for a missing or unparseable file, and returns any successfully
parsed JSON content unvalidated — the no-partial-record invariant rests
on `save` only ever writing fully-populated records, not on load-time
checking. -/
theorem loadCredentials_none_iff :
    (∀ f : CredFile,
      loadCredentials f = none ↔ f = CredFile.missing ∨ f = CredFile.unparseable) ∧
    (∀ v : JsonValue, loadCredentials (CredFile.parsed v) = some v) := by
  constructor
  · intro f
    cases f with
    | missing => simp [loadCredentials]
    | unparseable => simp [loadCredentials]
    | parsed v => simp [loadCredentials]
  · intro v
    rfl

/-- C10: when the stored credential is not near expiry but its refresh
token is empty and the first call answers 401, the forced refresh
raises and the exception escapes `withRetry`: the result is the
propagated error, not a failure `PostResult`, exactly one underlying
call was made (the retry never happens) and no refresh exchange was
performed. -/
theorem withRetry_refresh_raises (stored : Option Credentials) (c : Credentials)
    (now : Int) (tokens : TokenResponse) (fn : Nat → Credentials → HttpResponse)
    (onSuccess : HttpResponse → PostResult)
    (hs : stored = some c) (hexp : ¬ c.expiresAt < now + 86400)
    (hrt : c.refreshToken = "") (h401 : (fn 0 c).status = 401) :
    withRetry stored now tokens fn onSuccess =
      { result := Except.error
          "No refresh token available. Run \x27linkedin-agent auth\x27 again.",
        calls := 1, refreshes := 0 } := by
  subst hs
  simp [withRetry, getValidCredentials, refreshAccessToken, hexp, h401, hrt]

/-- C10 (witness): a stored credential without refresh token and a
call-function answering 401. -/
theorem withRetry_refresh_raises_witness :
    (¬ noRefreshCred.expiresAt < (0 : Int) + 86400) ∧
    noRefreshCred.refreshToken = "" ∧
    (fn401 0 noRefreshCred).status = 401 ∧
    withRetry (some noRefreshCred) 0 tokensNone fn401 anyInterp =
      { result := Except.error
          "No refresh token available. Run \x27linkedin-agent auth\x27 again.",
        calls := 1, refreshes := 0 } :=
  ⟨by decide, rfl, rfl,
   withRetry_refresh_raises (some noRefreshCred) noRefreshCred 0 tokensNone fn401
     anyInterp rfl (by decide) rfl rfl⟩
